import Mathlib

/-!
Verification of the privatebox instance-orchestration engine.

This file shallowly embeds the Go source of the repository:
  * `internal/config` (types.go, loader.go),
  * `internal/orchestration/stack.go` (getEnv, GetOutputs, ListStacks,
    FindInstancesUsingUserData),
  * `internal/providers/aws/provider.go` (GetPulumiProgram, readPublicKey,
    getPrincipalARN),
  * the CLI fan-out `getInstancesWithState`.
Pure Go functions become Lean functions; Go strings are modelled through
their character lists (`String.data`); external effects (file system,
AWS API, the Pulumi automation API) are explicit oracle parameters.
-/

namespace Privatebox

/-! ## Go string primitives

Go `strings.HasPrefix` / `strings.HasSuffix` / `strings.Contains` /
`strings.Replace(s, old, new, 1)` / `strings.LastIndex(s, "/")` /
`strings.TrimPrefix`, modelled on the character list of the string.
All strings handled by the program are ASCII, so the byte-index
arithmetic of Go coincides with the character indexing used here. -/

def strStartsWith (s pat : String) : Bool :=
  pat.data.isPrefixOf s.data

def strEndsWith (s pat : String) : Bool :=
  pat.data.isSuffixOf s.data

/-- Go `strings.Contains` on character lists. -/
def containsSeq (pat : List Char) : List Char → Bool
  | [] => pat.isEmpty
  | c :: rest => pat.isPrefixOf (c :: rest) || containsSeq pat rest

def strContains (s pat : String) : Bool :=
  containsSeq pat.data s.data

/-- Go `strings.Replace(s, old, new, 1)` on character lists
(the source only calls it with non-empty `old`). -/
def replaceFirstSeq (old nw : List Char) : List Char → List Char
  | [] => []
  | c :: rest =>
    if old.isPrefixOf (c :: rest) then nw ++ (c :: rest).drop old.length
    else c :: replaceFirstSeq old nw rest

def goReplaceOnce (s old nw : String) : String :=
  ⟨replaceFirstSeq old.data nw.data s.data⟩

/-- Index of the last occurrence of character `c`
(Go `strings.LastIndex(s, "/")` with a one-character needle). -/
def lastIdxOf (c : Char) : List Char → Option Nat
  | [] => none
  | x :: rest =>
    match lastIdxOf c rest with
    | some i => some (i + 1)
    | none => if x = c then some 0 else none

/-- Go `s[:n]` for ASCII strings. -/
def strTake (s : String) (n : Nat) : String :=
  ⟨s.data.take n⟩

/-- Go `s[n:]` for ASCII strings. -/
def strDrop (s : String) (n : Nat) : String :=
  ⟨s.data.drop n⟩

/-- Go `strings.TrimPrefix`. -/
def strTrimPfx (s pat : String) : String :=
  if strStartsWith s pat then strDrop s pat.data.length else s

/-- Model of Go `filepath.Join(a, b)` as used by the source for
home-directory expansion; the path-cleaning performed by Go is
irrelevant here because paths are only used as opaque oracle keys. -/
def goJoin (a b : String) : String :=
  a ++ "/" ++ b

/-! ## Association-list model of Go maps

Go maps with string keys; insertion replaces the value of an existing
key, lookup returns the first (unique) binding. -/

def tagGet (m : List (String × String)) (k : String) : Option String :=
  match m with
  | [] => none
  | (k₀, v₀) :: rest => if k₀ = k then some v₀ else tagGet rest k

def tagInsert (m : List (String × String)) (k v : String) :
    List (String × String) :=
  if (tagGet m k).isSome then
    m.map (fun kv => if kv.1 = k then (k, v) else kv)
  else
    m ++ [(k, v)]

/-! ## Configuration data model (`internal/config/types.go`) -/

/-- `config.AWSConfig` (ingress/egress rule lists carried verbatim as
opaque payload are omitted: no embedded function reads them). -/
structure AWSConfig where
  Profile : String
  InstanceType : String
  AMI : String
deriving Repr, DecidableEq

/-- `config.Profile`. -/
structure Profile where
  Provider : String
  PulumiBackend : String
  Region : String
  SSHPublicKey : String
  ConnectCommand : String
  UserData : String
  AWS : AWSConfig
deriving Repr, DecidableEq

/-- `config.AppConfig`. `Profiles` is `none` when the Go map is `nil`,
`some` an association list otherwise. -/
structure AppConfig where
  CurrentProfile : String
  Profiles : Option (List (String × Profile))
deriving Repr, DecidableEq

/-- `config.NewAppConfig`: empty but non-nil `Profiles` map. -/
def NewAppConfig : AppConfig :=
  { CurrentProfile := "", Profiles := some [] }

/-! ## `StackManager.getEnv` (`internal/orchestration/stack.go:38-61`) -/

/-- `(*StackManager).getEnv`, for the manager built by `NewStackManager`
with profile `cfg` and instance name `stackName`. The returned Go map is
modelled as an association list with unique keys. -/
def getEnv (cfg : Profile) (stackName : String) : List (String × String) :=
  let backend := cfg.PulumiBackend
  let backend :=
    if strStartsWith backend "file://" then
      (if strEndsWith backend "/" then backend else backend ++ "/") ++ stackName
    else backend
  let env := [("PULUMI_CONFIG_PASSPHRASE", ""), ("PULUMI_BACKEND_URL", backend)]
  let env := if cfg.AWS.Profile ≠ "" then env ++ [("AWS_PROFILE", cfg.AWS.Profile)] else env
  env ++ [("AWS_REGION", cfg.Region)]

/-- The backend URL `getEnv` prepares for the stack. -/
def backendURL (cfg : Profile) (stackName : String) : Option String :=
  tagGet (getEnv cfg stackName) "PULUMI_BACKEND_URL"

/-- Spec-side: the configured root normalised to carry no trailing
slash, so that "root plus one separating slash plus name" is well
defined whether or not the configured root ends in a slash. -/
def normRoot (s : String) : String :=
  if strEndsWith s "/" then ⟨s.data.dropLast⟩ else s

/-! ## `getPrincipalARN` (`internal/providers/aws/provider.go:323-335`) -/

/-- `(*AWSProvider).getPrincipalARN`: rewrites an assumed-role STS ARN
to the underlying IAM role ARN, leaves every other string unchanged. -/
def getPrincipalARN (arn : String) : String :=
  if strContains arn ":sts:" && strContains arn ":assumed-role/" then
    let arn := goReplaceOnce arn ":sts:" ":iam:"
    let arn := goReplaceOnce arn ":assumed-role/" ":role/"
    match lastIdxOf '/' arn.data with
    | some idx => strTake arn idx
    | none => arn
  else arn

/-! ## Provider data model (`internal/providers/interface.go`) -/

/-- `providers.InstanceSpec`. The Go field `Type` is called `instType`
here because `Type` is reserved in Lean; `Tags` is the Go map as an
association list with unique keys. -/
structure InstanceSpec where
  Name : String
  instType : String
  ProfileName : String
  UserData : String
  UserDataName : String
  Tags : List (String × String)
deriving Repr, DecidableEq

/-- `providers.RuntimeInfo`. The `CPUUsage float64` field is omitted:
it is hardwired to `0.0` by the only producer and read by no embedded
function. -/
structure RuntimeInfo where
  ID : String
  PublicIP : String
  State : String
deriving Repr, DecidableEq

/-! ## The AWS Pulumi program (`internal/providers/aws/provider.go`) -/

/-- External effects available to the Pulumi run function:
the STS caller identity (`none` models a `GetCallerIdentity` failure,
`some (arn, accountId)` a success), the user home directory, the local
file system (`none` models a read error), and the result of the
`ec2.LookupAmi` call for the fixed Ubuntu 22.04 filter (`none` models a
lookup failure). -/
structure PulumiEnv where
  callerIdentity : Option (String × String)
  homeDir : String
  fileRead : String → Option String
  amiLookup : Option String

/-- The compute instance registered by the program (`ec2.NewInstance`
arguments that are plain data; resource-output-valued arguments such as
the security-group id are engine handles and carry no information). -/
structure Ec2Instance where
  instanceType : String
  ami : String
  keyName : Option String
  userData : String
  tags : List (String × String)
deriving Repr, DecidableEq

/-- Observable outcome of a successful run of the Pulumi program:
the principal written into the KMS key policy, the created compute
instance, and the plain-data stack exports (`profileName`,
`userDataName`; the resource-output exports `instanceID`/`publicIP`/...
are produced by the engine, not by program logic). -/
structure ProgramResult where
  keyPolicyPrincipal : String
  keyPolicyAccount : String
  computeInstance : Ec2Instance
  exports : List (String × String)
deriving Repr, DecidableEq

/-- The `~/` home-directory expansion of `readPublicKey`
(provider.go:271-274). -/
def expandHome (env : PulumiEnv) (path : String) : String :=
  if strStartsWith path "~/" then goJoin env.homeDir (strDrop path 2) else path

/-- `(*AWSProvider).readPublicKey` (provider.go:265-281): empty-path
guard, `~/` home expansion, then `os.ReadFile` through the oracle. -/
def readPublicKey (env : PulumiEnv) (path : String) : Except String String :=
  if path = "" then .error "ssh public key path is empty"
  else
    match env.fileRead (expandHome env path) with
    | some content => .ok content
    | none => .error ("open " ++ expandHome env path)

/-- The tag map prepared for the compute instance
(provider.go:218-226): reserved `Name` first, `UserDataName` when a
named boot script was used, then the caller-supplied tags, in that
order, so a later write replaces an earlier one. -/
def buildTags (spec : InstanceSpec) : List (String × String) :=
  let pulumiTags : List (String × String) := []
  let pulumiTags := tagInsert pulumiTags "Name" spec.Name
  let pulumiTags :=
    if spec.UserDataName ≠ "" then tagInsert pulumiTags "UserDataName" spec.UserDataName
    else pulumiTags
  spec.Tags.foldl (fun m kv => tagInsert m kv.1 kv.2) pulumiTags

/-- Step 2 of the run function: the optional key-pair import.
`some keyName` on success, `error` if a configured key is unreadable. -/
def keyPairStep (cfg : Profile) (spec : InstanceSpec) (env : PulumiEnv) :
    Except String (Option String) :=
  if cfg.SSHPublicKey ≠ "" then
    match readPublicKey env cfg.SSHPublicKey with
    | .error e => .error ("failed to read ssh key: " ++ e)
    | .ok _ => .ok (some (spec.Name ++ "-key"))
  else .ok none

/-- Step 3 of the run function: AMI resolution — the configured
override, else the `ec2.LookupAmi` result. -/
def amiStep (cfg : Profile) (env : PulumiEnv) : Except String String :=
  if cfg.AWS.AMI = "" then
    match env.amiLookup with
    | some id => .ok id
    | none => .error "ami lookup failed"
  else .ok cfg.AWS.AMI

/-- The run function returned by `(*AWSProvider).GetPulumiProgram`
(provider.go:45-263), evaluated against an explicit effect environment.
Pulumi resource registrations themselves are modelled as always
succeeding (their failures come from the engine, not from this
program's logic); the KMS key-policy JSON document is represented by
the two principals interpolated into it. -/
def runPulumiProgram (cfg : Profile) (spec : InstanceSpec) (env : PulumiEnv) :
    Except String ProgramResult :=
  -- 0. GetCallerIdentity
  match env.callerIdentity with
  | none => .error "failed to get caller identity"
  | some caller =>
    let principalArn := getPrincipalARN caller.1
    -- 0.5-1.5: KMS key, security group, IAM role/attachment/profile —
    -- registrations with constant inputs, no data consulted by any claim.
    -- 2. Import key pair (if provided)
    match keyPairStep cfg spec env with
    | .error e => .error e
    | .ok keyName =>
      -- 3. Find AMI
      match amiStep cfg env with
      | .error e => .error e
      | .ok amiID =>
        -- 4. Create instance
        let instanceType := cfg.AWS.InstanceType
        let instanceType := if instanceType = "" then "t3.micro" else instanceType
        let pulumiTags := buildTags spec
        let srv : Ec2Instance :=
          { instanceType := instanceType
            ami := amiID
            keyName := keyName
            userData := spec.UserData
            tags := pulumiTags }
        -- 5. Exports
        let exports :=
          if spec.ProfileName ≠ "" then [("profileName", spec.ProfileName)] else []
        let exports :=
          exports ++ [("userDataName", (tagGet pulumiTags "UserDataName").getD "")]
        .ok
          { keyPolicyPrincipal := principalArn
            keyPolicyAccount := caller.2
            computeInstance := srv
            exports := exports }

/-- The CLI guard of `createInstance` (instance command file): the
instance name is validated before any graph is built. -/
def createInstanceNameGuard (name : String) : Except String Unit :=
  if name = "" then .error "instance name is required" else .ok ()

/-! ## `ListStacks` (`internal/orchestration/stack.go:161-187`) -/

/-- One `os.DirEntry`. -/
structure DirEntry where
  name : String
  isDir : Bool
deriving Repr, DecidableEq

/-- Outcome of `os.ReadDir`: success with entries, a does-not-exist
error, or any other error. -/
inductive ReadDirResult where
  | ok (entries : List DirEntry)
  | notExist
  | err
deriving Repr, DecidableEq

/-- File-system effects consulted by `ListStacks`: the user home
directory and `os.ReadDir`. -/
structure FsEnv where
  homeDir : String
  readDir : String → ReadDirResult

/-- The directory `ListStacks` enumerates for a file backend: the URL
with its `file://` scheme stripped and a leading `~/` expanded. -/
def listPath (cfg : Profile) (fs : FsEnv) : String :=
  let path := strTrimPfx cfg.PulumiBackend "file://"
  if strStartsWith path "~/" then goJoin fs.homeDir (strDrop path 2) else path

/-- `orchestration.ListStacks`: file-backend directory enumeration,
`UnsupportedBackend`-style error for every other backend. -/
def ListStacks (cfg : Profile) (fs : FsEnv) : Except String (List String) :=
  let backend := cfg.PulumiBackend
  if strStartsWith backend "file://" then
    match fs.readDir (listPath cfg fs) with
    | .notExist => .ok []
    | .err => .error "read dir failed"
    | .ok entries => .ok ((entries.filter (fun e => e.isDir)).map (fun e => e.name))
  else .error "listing stacks only supported for file:// backend"

/-! ## The Pulumi automation API used by `GetOutputs`
(`internal/orchestration/stack.go:142-159`)

Model of the two automation-API operations the source composes over a
local file backend: `auto.UpsertStackInlineSource` creates the stack
when it is absent and only stores (never runs) the inline program;
`Stack.Outputs` returns the outputs recorded for the stack, which is
the empty map for a stack that has never been deployed. -/

/-- Value of a stack output (`auto.OutputValue.Value` is `interface{}`;
only its string refinement is ever consulted). -/
inductive OutputValue where
  | vstr (s : String)
  | vother
deriving Repr, DecidableEq

/-- A stack's output map (`auto.OutputMap`). -/
abbrev OutputMap := List (String × OutputValue)

/-- Go `outs[k]` followed by the `.Value.(string)` type assertion: the
assertion fails both on a missing key (zero `OutputValue`, nil value)
and on a non-string value. -/
def outStr (outs : OutputMap) (k : String) : Option String :=
  match outs.find? (fun kv => kv.1 = k) with
  | some (_, .vstr s) => some s
  | _ => none

/-- The stack store of one profile's Pulumi backend, keyed by
stack name (the per-instance partition derived by `getEnv` holds at
most this one stack). -/
structure PulumiBackendState where
  stackL : List (String × OutputMap)

/-- `auto.UpsertStackInlineSource`: select the stack when present,
create it (with no deployment, hence no outputs) otherwise. The inline
`program` is stored, never executed. -/
def upsertStack (st : PulumiBackendState) (name : String) : PulumiBackendState :=
  if (st.stackL.find? (fun kv => kv.1 = name)).isSome then st
  else ⟨st.stackL ++ [(name, [])]⟩

/-- `Stack.Outputs` for a stack known to the backend. -/
def stackOutputs (st : PulumiBackendState) (name : String) : Option OutputMap :=
  (st.stackL.find? (fun kv => kv.1 = name)).map Prod.snd

/-- `(*StackManager).GetOutputs` for the manager of instance `name`:
builds the env, re-creates the inline program from a dummy spec (the
`getProgram` argument models `s.provider.GetPulumiProgram`), upserts
the stack and reads its outputs. Returns the result together with the
backend state left behind. -/
def GetOutputs (cfg : Profile)
    (getProgram : InstanceSpec → PulumiEnv → Except String ProgramResult)
    (st : PulumiBackendState) (name : String) :
    Except String OutputMap × PulumiBackendState :=
  let _env := getEnv cfg name
  let dummySpec : InstanceSpec :=
    { Name := name, instType := "", ProfileName := "", UserData := "",
      UserDataName := "", Tags := [] }
  let _program := getProgram dummySpec
  let st := upsertStack st name
  match stackOutputs st name with
  | some outs => (.ok outs, st)
  | none => (.error "failed to get outputs", st)

/-! ## Probing fan-out

`orchestration.FindInstancesUsingUserData` (stack.go:190-213) and the
CLI `getInstancesWithState`. Each per-instance probe is independent;
its effects are the per-name `GetOutputs` result and the per-id
`GetInstanceStatus` result, both supplied as oracles (`none` = the Go
call returned an error). The source collects candidates from
concurrently completing goroutines, so its result order is
nondeterministic; the embedding fixes the enumeration order of the
stack list, and every theorem below is insensitive to order. -/

structure ProbeEnv where
  getOutputs : String → Option OutputMap
  getInstanceStatus : String → Option RuntimeInfo

/-- `orchestration.FindInstancesUsingUserData`. -/
def FindInstancesUsingUserData (cfg : Profile) (fs : FsEnv) (pe : ProbeEnv)
    (userDataName : String) : Except String (List String) :=
  match ListStacks cfg fs with
  | .error e => .error e
  | .ok stackL =>
    .ok (stackL.filter (fun name =>
      match pe.getOutputs name with
      | none => false
      | some outs =>
        match outStr outs "userDataName" with
        | some sVal => sVal = userDataName
        | none => false))

/-- Body of one goroutine of `getInstancesWithState` (part_007:
494-534): `true` iff the instance named `name` is appended to the
candidate list. -/
def probeCandidate (profile : Profile) (pe : ProbeEnv) (desiredState name : String) :
    Bool :=
  if profile.Provider = "aws" then
    match pe.getOutputs name with
    | none => false
    | some outs =>
      match outStr outs "instanceID" with
      | none => false
      | some id =>
        if id = "" then false
        else
          match pe.getInstanceStatus id with
          | none => false
          | some status =>
            (desiredState = "running" && status.State = "running") ||
            (desiredState = "stopped" && status.State = "stopped")
  else false

/-- CLI `getInstancesWithState` (part_007:469-540), with the profile
already loaded: list the stack names; with no requested state return them
all unprobed; otherwise keep the names whose concurrent probe matched. -/
def getInstancesWithState (profile : Profile) (fs : FsEnv) (pe : ProbeEnv)
    (desiredState : String) : Except String (List String) :=
  match ListStacks profile fs with
  | .error e => .error e
  | .ok stackL =>
    if desiredState = "" then .ok stackL
    else .ok (stackL.filter (probeCandidate profile pe desiredState))

/-! ## Configuration loading (`internal/config/loader.go:37-97`) -/

/-- External effects of `(*Loader).Load`: existence checks and reads
of the YAML and legacy JSON config files, and the yaml/json
unmarshallers (`none` = the Go call returned an error; a JSON document
that is a bare profile object still unmarshals into `AppConfig`, then
with a nil `Profiles` map). -/
structure LoadEnv where
  yamlExists : Bool
  yamlRead : Option String
  yamlParse : String → Option AppConfig
  jsonExists : Bool
  jsonRead : Option String
  jsonParseApp : String → Option AppConfig
  jsonParseProfile : String → Option Profile

/-- `(*Loader).Load`. -/
def Load (env : LoadEnv) : Except String AppConfig :=
  -- 1. Try config.yaml
  if env.yamlExists then
    match env.yamlRead with
    | none => .error "failed to read config file"
    | some data =>
      match env.yamlParse data with
      | none => .error "failed to parse yaml config"
      | some appCfg =>
        if appCfg.Profiles = none then .ok NewAppConfig else .ok appCfg
  -- 2. Try config.json (legacy)
  else if env.jsonExists then
    match env.jsonRead with
    | none => .error "failed to read legacy config file"
    | some data =>
      match env.jsonParseApp data with
      | none => .error "failed to parse legacy config"
      | some appCfg =>
        if appCfg.Profiles = none then
          match env.jsonParseProfile data with
          | some oldProfile =>
            if oldProfile.Provider ≠ "" then
              .ok { NewAppConfig with Profiles := some [("default", oldProfile)] }
            else .ok NewAppConfig
          | none => .ok NewAppConfig
        else .ok appCfg
  -- 3. No config found, return defaults
  else .ok NewAppConfig

/-! # Helper lemmas -/

theorem strData_inj {s t : String} (h : s.data = t.data) : s = t := by
  cases s; cases t; simp_all

theorem strData_append (s t : String) : (s ++ t).data = s.data ++ t.data := by
  cases s; cases t; rfl

/-- A string that ends in `"/"` is its `dropLast` followed by `"/"`. -/
theorem dropLast_append_slash {s : String} (h : strEndsWith s "/" = true) :
    (⟨s.data.dropLast⟩ : String) ++ "/" = s := by
  unfold strEndsWith at h
  have h2 : "/".data <:+ s.data := by
    simpa [List.isSuffixOf_iff_suffix] using h
  obtain ⟨l, hl⟩ := h2
  apply strData_inj
  rw [strData_append, ← hl]
  simp

/-! # C1: per-instance backend partition derived from root and name -/

/-- C1. For a profile whose backend is a local `file://` backend, the
environment `getEnv` prepares for stack operations sets
`PULUMI_BACKEND_URL` to the configured root joined to the instance
name by exactly one slash (whether or not the configured root ends in
`"/"`), and distinct instance names always receive distinct partition
URLs. -/
theorem backend_partition_isolated (cfg : Profile) (name : String)
    (h : strStartsWith cfg.PulumiBackend "file://" = true) :
    backendURL cfg name = some (normRoot cfg.PulumiBackend ++ "/" ++ name) ∧
    ∀ n₁ n₂ : String, n₁ ≠ n₂ → backendURL cfg n₁ ≠ backendURL cfg n₂ := by
  have hnorm : (if strEndsWith cfg.PulumiBackend "/" = true then cfg.PulumiBackend
      else cfg.PulumiBackend ++ "/") = normRoot cfg.PulumiBackend ++ "/" := by
    by_cases hs : strEndsWith cfg.PulumiBackend "/" = true
    · rw [if_pos hs]
      unfold normRoot
      rw [if_pos hs, dropLast_append_slash hs]
    · rw [if_neg hs]
      unfold normRoot
      rw [if_neg hs]
  have hurl : ∀ n : String,
      backendURL cfg n = some (normRoot cfg.PulumiBackend ++ "/" ++ n) := by
    intro n
    by_cases hp : cfg.AWS.Profile = "" <;>
      simp [backendURL, getEnv, h, hp, tagGet, hnorm]
  refine ⟨hurl name, ?_⟩
  intro n₁ n₂ hne heq
  rw [hurl n₁, hurl n₂] at heq
  apply hne
  have h1 : normRoot cfg.PulumiBackend ++ "/" ++ n₁ =
      normRoot cfg.PulumiBackend ++ "/" ++ n₂ := Option.some.inj heq
  have h2 := congrArg String.data h1
  rw [strData_append, strData_append] at h2
  exact strData_inj (List.append_cancel_left h2)

/-- A concrete profile matching the first case of the Go test
`TestStackManager_getEnv`. -/
def fileProfile : Profile :=
  { Provider := "aws"
    PulumiBackend := "file://~/.privatebox/state"
    Region := "us-east-1"
    SSHPublicKey := ""
    ConnectCommand := ""
    UserData := ""
    AWS := { Profile := "", InstanceType := "", AMI := "" } }

/-- Witness for C1 at the profile of the Go test and instance `dev1`. -/
theorem backend_partition_isolated_witness :
    strStartsWith fileProfile.PulumiBackend "file://" = true ∧
    (backendURL fileProfile "dev1" =
        some (normRoot fileProfile.PulumiBackend ++ "/" ++ "dev1") ∧
      ∀ n₁ n₂ : String, n₁ ≠ n₂ →
        backendURL fileProfile n₁ ≠ backendURL fileProfile n₂) :=
  ⟨by decide, backend_partition_isolated fileProfile "dev1" (by decide)⟩

/-! # C9: `getPrincipalARN` normalization -/

/-- Stepping a first-occurrence replacement over a block in which the
pattern head never occurs. -/
theorem replaceFirstSeq_append (o : Char) (old nw a b : List Char)
    (h : ∀ c ∈ a, c ≠ o) :
    replaceFirstSeq (o :: old) nw (a ++ b) = a ++ replaceFirstSeq (o :: old) nw b := by
  induction a with
  | nil => simp
  | cons c a ih =>
    have hco : c ≠ o := h c (List.mem_cons_self ..)
    have hpfx : (o :: old).isPrefixOf (c :: (a ++ b)) = false := by
      simp [List.isPrefixOf]
      intro hoc
      exact absurd hoc.symm hco
    rw [List.cons_append, replaceFirstSeq, hpfx]
    simp only [Bool.false_eq_true, if_false]
    rw [ih (fun x hx => h x (List.mem_cons_of_mem _ hx)), List.cons_append]

theorem containsSeq_append_of_pfx (pat a b : List Char)
    (h : pat.isPrefixOf b = true) : containsSeq pat (a ++ b) = true := by
  induction a with
  | nil =>
    cases b with
    | nil =>
      cases pat with
      | nil => simp [containsSeq]
      | cons p ps => simp [List.isPrefixOf] at h
    | cons x xs => simp [containsSeq, h]
  | cons c rest ih => simp [containsSeq, ih]

theorem lastIdxOf_append_some (c : Char) (a b : List Char) (i : Nat)
    (h : lastIdxOf c b = some i) : lastIdxOf c (a ++ b) = some (a.length + i) := by
  induction a with
  | nil => simpa using h
  | cons x xs ih =>
    rw [List.cons_append]
    simp only [lastIdxOf]
    rw [ih]
    simp only [List.length_cons]
    congr 1
    omega

theorem lastIdxOf_eq_none (c : Char) (l : List Char)
    (h : ∀ x ∈ l, x ≠ c) : lastIdxOf c l = none := by
  induction l with
  | nil => rfl
  | cons x xs ih =>
    rw [lastIdxOf, ih (fun y hy => h y (List.mem_cons_of_mem _ hy))]
    simp [h x (List.mem_cons_self _ _)]

/-- First rewrite: the `":sts:"` marker of a canonical assumed-role ARN
sits inside the concrete prelude, so the replacement never looks at the
account id or beyond. -/
theorem canon_step1 (acct role sess : String) :
    goReplaceOnce ("arn:aws:sts::" ++ acct ++ ":assumed-role/" ++ role ++ "/" ++ sess)
      ":sts:" ":iam:" =
    "arn:aws:iam::" ++ acct ++ ":assumed-role/" ++ role ++ "/" ++ sess := by
  apply strData_inj
  simp [goReplaceOnce, strData_append, List.append_assoc, replaceFirstSeq, List.isPrefixOf]

theorem step2_walk (t : List Char)
    (hstuck : ("assumed-role/".data).isPrefixOf t = false) :
    replaceFirstSeq ":assumed-role/".data ":role/".data ("arn:aws:iam::".data ++ t) =
      "arn:aws:iam::".data ++ replaceFirstSeq ":assumed-role/".data ":role/".data t := by
  simp [replaceFirstSeq, List.isPrefixOf, hstuck]

theorem step2_head (r : List Char) :
    replaceFirstSeq ":assumed-role/".data ":role/".data (":assumed-role/".data ++ r) =
      ":role/".data ++ r := by
  simp [replaceFirstSeq, List.isPrefixOf]

/-- Second rewrite: with a non-empty all-digit account id the first
`":assumed-role/"` occurrence is the canonical one. -/
theorem canon_step2 (acct role sess : String)
    (h1 : acct.data ≠ [])
    (h2 : ∀ c ∈ acct.data, c.isDigit = true) :
    goReplaceOnce ("arn:aws:iam::" ++ acct ++ ":assumed-role/" ++ role ++ "/" ++ sess)
      ":assumed-role/" ":role/" =
    "arn:aws:iam::" ++ acct ++ ":role/" ++ role ++ "/" ++ sess := by
  obtain ⟨d, ds, hA⟩ : ∃ d ds, acct.data = d :: ds := by
    cases hA : acct.data with
    | nil => exact absurd hA h1
    | cons d ds => exact ⟨d, ds, rfl⟩
  have hd : d.isDigit = true := h2 d (by rw [hA]; exact List.mem_cons_self _ _)
  have hda : ('a' == d) = false := by
    by_contra hcon
    rw [Bool.not_eq_false, beq_iff_eq] at hcon
    rw [← hcon] at hd
    exact absurd hd (by decide)
  have hcolon : ∀ c ∈ acct.data, c ≠ ':' := by
    intro c hc heq
    have hdig := h2 c hc
    rw [heq] at hdig
    exact absurd hdig (by decide)
  have hstuck : ("assumed-role/".data).isPrefixOf (acct.data ++
      (":assumed-role/" ++ role ++ "/" ++ sess).data) = false := by
    rw [hA, List.cons_append]
    simp [List.isPrefixOf, hda]
  apply strData_inj
  have hs : ("arn:aws:iam::" ++ acct ++ ":assumed-role/" ++ role ++ "/" ++ sess).data
      = "arn:aws:iam::".data ++ (acct.data ++
        (":assumed-role/" ++ role ++ "/" ++ sess).data) := by
    simp [strData_append, List.append_assoc]
  rw [show goReplaceOnce ("arn:aws:iam::" ++ acct ++ ":assumed-role/" ++ role ++ "/" ++ sess) ":assumed-role/" ":role/" = ⟨replaceFirstSeq ":assumed-role/".data ":role/".data ("arn:aws:iam::" ++ acct ++ ":assumed-role/" ++ role ++ "/" ++ sess).data⟩ from rfl]
  rw [hs, step2_walk _ hstuck]
  have hpat : (":assumed-role/".data : List Char) = ':' :: "assumed-role/".data := rfl
  have hsplit : (":assumed-role/" ++ role ++ "/" ++ sess).data =
      ":assumed-role/".data ++ (role.data ++ ('/' :: sess.data)) := by
    simp [strData_append, List.append_assoc]
  rw [hsplit, hpat, replaceFirstSeq_append ':' _ _ _ _ hcolon, ← hpat, step2_head]
  simp [strData_append, List.append_assoc]

/-- Third step: with a slash-free session name the last `'/'` is the
session separator, so truncation drops exactly the session segment. -/
theorem canon_step3 (acct role sess : String)
    (h3 : ∀ c ∈ sess.data, c ≠ '/') :
    (match lastIdxOf '/' ("arn:aws:iam::" ++ acct ++ ":role/" ++ role ++ "/" ++ sess).data with
     | some idx => strTake ("arn:aws:iam::" ++ acct ++ ":role/" ++ role ++ "/" ++ sess) idx
     | none => "arn:aws:iam::" ++ acct ++ ":role/" ++ role ++ "/" ++ sess) =
    "arn:aws:iam::" ++ acct ++ ":role/" ++ role := by
  have hsl : lastIdxOf '/' ('/' :: sess.data) = some 0 := by
    rw [lastIdxOf, lastIdxOf_eq_none _ _ h3]
    simp
  have hsplit : ("arn:aws:iam::" ++ acct ++ ":role/" ++ role ++ "/" ++ sess).data =
      ("arn:aws:iam::" ++ acct ++ ":role/" ++ role).data ++ ('/' :: sess.data) := by
    simp [strData_append, List.append_assoc]
  have hidx : lastIdxOf '/' ("arn:aws:iam::" ++ acct ++ ":role/" ++ role ++ "/" ++ sess).data =
      some (("arn:aws:iam::" ++ acct ++ ":role/" ++ role).data.length) := by
    rw [hsplit, lastIdxOf_append_some _ _ _ _ hsl]; simp
  rw [hidx]
  apply strData_inj
  show (strTake _ _).data = _
  rw [strTake]
  rw [hsplit]
  rw [List.take_left]

theorem canon_contains1 (acct role sess : String) :
    strContains ("arn:aws:sts::" ++ acct ++ ":assumed-role/" ++ role ++ "/" ++ sess)
      ":sts:" = true := by
  unfold strContains
  have hs : ("arn:aws:sts::" ++ acct ++ ":assumed-role/" ++ role ++ "/" ++ sess).data =
      "arn:aws".data ++ (":sts:".data ++
        ((":" : String).data ++ acct.data ++ (":assumed-role/" ++ role ++ "/" ++ sess).data)) := by
    simp [strData_append, List.append_assoc]
  rw [hs]
  apply containsSeq_append_of_pfx
  rw [ List.isPrefixOf_iff_prefix]
  exact List.prefix_append _ _

theorem canon_contains2 (acct role sess : String) :
    strContains ("arn:aws:sts::" ++ acct ++ ":assumed-role/" ++ role ++ "/" ++ sess)
      ":assumed-role/" = true := by
  unfold strContains
  have hs : ("arn:aws:sts::" ++ acct ++ ":assumed-role/" ++ role ++ "/" ++ sess).data =
      ("arn:aws:sts::".data ++ acct.data) ++ (":assumed-role/".data ++
        (role.data ++ ('/' :: sess.data))) := by
    simp [strData_append, List.append_assoc]
  rw [hs]
  apply containsSeq_append_of_pfx
  rw [ List.isPrefixOf_iff_prefix]
  exact List.prefix_append _ _

/-- C9 counterexample: `getPrincipalARN` is not idempotent on every
input string. On `":sts::sts::assumed-role/:assumed-role/x/y"` one
application still leaves both the `":sts:"` and the `":assumed-role/"`
markers in its result, so a second application rewrites again. -/
theorem getPrincipalARN_claim_counterexample :
    ¬ (∀ arn : String,
        getPrincipalARN (getPrincipalARN arn) = getPrincipalARN arn) := by
  intro h
  have hx := h ":sts::sts::assumed-role/:assumed-role/x/y"
  revert hx
  decide

/-- C9 (amended). `getPrincipalARN` leaves every string unchanged that
does not contain both `":sts:"` and `":assumed-role/"`; on a canonical
assumed-role ARN (non-empty numeric account id, slash-free session
name) it yields the underlying IAM role ARN — `":sts:"` becomes
`":iam:"`, `":assumed-role/"` becomes `":role/"`, the session segment
is dropped; and it is idempotent on every input whose image no longer
contains both markers (in particular on canonical ARNs) — but, per the
counterexample, not on all strings. -/
theorem getPrincipalARN_normalization :
    (∀ arn : String,
      ¬(strContains arn ":sts:" = true ∧ strContains arn ":assumed-role/" = true) →
      getPrincipalARN arn = arn) ∧
    (∀ acct role sess : String, acct.data ≠ [] →
      (∀ c ∈ acct.data, c.isDigit = true) →
      (∀ c ∈ sess.data, c ≠ '/') →
      getPrincipalARN ("arn:aws:sts::" ++ acct ++ ":assumed-role/" ++ role ++ "/" ++ sess) =
        "arn:aws:iam::" ++ acct ++ ":role/" ++ role) ∧
    (∀ arn : String,
      ¬(strContains (getPrincipalARN arn) ":sts:" = true ∧
        strContains (getPrincipalARN arn) ":assumed-role/" = true) →
      getPrincipalARN (getPrincipalARN arn) = getPrincipalARN arn) := by
  have hfix : ∀ arn : String,
      ¬(strContains arn ":sts:" = true ∧ strContains arn ":assumed-role/" = true) →
      getPrincipalARN arn = arn := by
    intro arn h
    rw [getPrincipalARN]
    have hcond : (strContains arn ":sts:" && strContains arn ":assumed-role/") = false := by
      cases hA : strContains arn ":sts:" <;>
        cases hB : strContains arn ":assumed-role/" <;> simp_all
    rw [hcond]
    simp
  refine ⟨hfix, ?_, fun arn h => hfix _ h⟩
  intro acct role sess h1 h2 h3
  rw [getPrincipalARN]
  rw [canon_contains1, canon_contains2]
  simp only [Bool.and_self, if_true]
  rw [canon_step1, canon_step2 _ _ _ h1 h2]
  exact canon_step3 _ _ _ h3

/-- Witness for C9 at the ARN of an assumed role `myrole` in account
`123456789012` with session name `sess`. -/
theorem getPrincipalARN_normalization_witness :
    ("123456789012" : String).data ≠ [] ∧
    (∀ c ∈ ("123456789012" : String).data, c.isDigit = true) ∧
    (∀ c ∈ ("sess" : String).data, c ≠ '/') ∧
    getPrincipalARN ("arn:aws:sts::" ++ "123456789012" ++ ":assumed-role/" ++
        "myrole" ++ "/" ++ "sess") =
      "arn:aws:iam::" ++ "123456789012" ++ ":role/" ++ "myrole" :=
  ⟨by decide, by decide, by decide,
    getPrincipalARN_normalization.2.1 "123456789012" "myrole" "sess"
      (by decide) (by decide) (by decide)⟩

/-! # C2: reserved tags on the created compute instance -/

theorem tagGet_append (m l : List (String × String)) (k : String) :
    tagGet (m ++ l) k =
      match tagGet m k with
      | some v => some v
      | none => tagGet l k := by
  induction m with
  | nil => simp [tagGet]
  | cons a t ih =>
    obtain ⟨k₀, v₀⟩ := a
    by_cases h : k₀ = k <;> simp [tagGet, h, ih]

theorem tagGet_insert_self (m : List (String × String)) (k v : String) :
    tagGet (tagInsert m k v) k = some v := by
  unfold tagInsert
  by_cases h : (tagGet m k).isSome = true
  · rw [if_pos h]
    induction m with
    | nil => simp [tagGet] at h
    | cons a t ih =>
      obtain ⟨k₀, v₀⟩ := a
      by_cases hk : k₀ = k
      · subst hk
        rw [List.map_cons,
          show (if ((k₀, v₀) : String × String).1 = k₀ then (k₀, v) else (k₀, v₀)) = (k₀, v)
            from if_pos rfl]
        simp [tagGet]
      · rw [tagGet, if_neg hk] at h
        simp only [List.map_cons]
        rw [show ((if (k₀, v₀).1 = k then (k, v) else (k₀, v₀))) = (k₀, v₀) by simp [hk]]
        rw [tagGet, if_neg hk]
        exact ih h
  · rw [if_neg h]
    rw [tagGet_append]
    rw [Option.not_isSome_iff_eq_none] at h
    rw [h]
    simp [tagGet]

theorem tagGet_insert_ne (m : List (String × String)) (k v k' : String)
    (hne : k' ≠ k) : tagGet (tagInsert m k v) k' = tagGet m k' := by
  unfold tagInsert
  by_cases h : (tagGet m k).isSome = true
  · rw [if_pos h]
    clear h
    induction m with
    | nil => simp [tagGet]
    | cons a t ih =>
      obtain ⟨k₀, v₀⟩ := a
      by_cases hk : k₀ = k
      · subst hk
        simp only [List.map_cons, if_pos rfl]
        rw [tagGet, tagGet, if_neg (fun hh => hne hh.symm), if_neg ?x]
        · exact ih
        · exact fun hh => hne hh.symm
      · simp only [List.map_cons]
        rw [show ((if (k₀, v₀).1 = k then (k, v) else (k₀, v₀))) = (k₀, v₀) by simp [hk]]
        by_cases hk' : k₀ = k'
        · simp [tagGet, hk']
        · rw [tagGet, tagGet, if_neg hk', if_neg hk']
          exact ih
  · rw [if_neg h, tagGet_append]
    cases hg : tagGet m k' with
    | some v₀ => simp
    | none =>
      have hne2 : ¬ k = k' := fun hh => hne hh.symm
      simp [tagGet, hne2]

theorem tagGet_eq_none_iff (m : List (String × String)) (k : String) :
    tagGet m k = none ↔ k ∉ m.map Prod.fst := by
  induction m with
  | nil => simp [tagGet]
  | cons a t ih =>
    obtain ⟨k₀, v₀⟩ := a
    by_cases h : k₀ = k
    · simp [tagGet, h, ih]
    · simp [tagGet, h, ih]
      tauto

theorem foldl_tagInsert_not_mem (l : List (String × String))
    (m₀ : List (String × String)) (k : String)
    (h : k ∉ l.map Prod.fst) :
    tagGet (l.foldl (fun m kv => tagInsert m kv.1 kv.2) m₀) k = tagGet m₀ k := by
  induction l generalizing m₀ with
  | nil => rfl
  | cons a t ih =>
    obtain ⟨k₀, v₀⟩ := a
    simp only [List.map_cons, List.mem_cons] at h
    push_neg at h
    rw [List.foldl_cons, ih _ h.2, tagGet_insert_ne _ _ _ _ h.1]

theorem foldl_tagInsert_mem (l : List (String × String))
    (m₀ : List (String × String)) (k v : String)
    (hnd : (l.map Prod.fst).Nodup) (hmem : (k, v) ∈ l) :
    tagGet (l.foldl (fun m kv => tagInsert m kv.1 kv.2) m₀) k = some v := by
  induction l generalizing m₀ with
  | nil => simp at hmem
  | cons a t ih =>
    obtain ⟨k₀, v₀⟩ := a
    simp only [List.map_cons, List.nodup_cons] at hnd
    rcases List.mem_cons.mp hmem with hhd | htl
    · rw [Prod.mk.injEq] at hhd
      obtain ⟨hk, hv⟩ := hhd
      subst hk
      subst hv
      rw [List.foldl_cons, foldl_tagInsert_not_mem _ _ _ hnd.1, tagGet_insert_self]
    · rw [List.foldl_cons]
      exact ih _ hnd.2 htl

/-- Inversion of a successful run of the Pulumi program. -/
theorem runPulumiProgram_ok_elim {cfg : Profile} {spec : InstanceSpec}
    {env : PulumiEnv} {r : ProgramResult}
    (h : runPulumiProgram cfg spec env = .ok r) :
    ∃ caller keyName amiID,
      env.callerIdentity = some caller ∧
      keyPairStep cfg spec env = .ok keyName ∧
      amiStep cfg env = .ok amiID ∧
      r = { keyPolicyPrincipal := getPrincipalARN caller.1
            keyPolicyAccount := caller.2
            computeInstance :=
              { instanceType :=
                  if cfg.AWS.InstanceType = "" then "t3.micro" else cfg.AWS.InstanceType
                ami := amiID
                keyName := keyName
                userData := spec.UserData
                tags := buildTags spec }
            exports :=
              (if spec.ProfileName ≠ "" then [("profileName", spec.ProfileName)] else []) ++
                [("userDataName", (tagGet (buildTags spec) "UserDataName").getD "")] } := by
  unfold runPulumiProgram at h
  cases hc : env.callerIdentity with
  | none => rw [hc] at h; cases h
  | some caller =>
    rw [hc] at h
    cases hk : keyPairStep cfg spec env with
    | error e => rw [hk] at h; cases h
    | ok keyName =>
      rw [hk] at h
      cases ha : amiStep cfg env with
      | error e => rw [ha] at h; cases h
      | ok amiID =>
        rw [ha] at h
        exact ⟨caller, keyName, amiID, rfl, rfl, rfl, (Except.ok.inj h).symm⟩

/-- A run with successful caller identity, key step and AMI step
succeeds. -/
theorem runPulumiProgram_ok_intro {cfg : Profile} {spec : InstanceSpec}
    {env : PulumiEnv} {caller : String × String} {keyName : Option String}
    {amiID : String}
    (hc : env.callerIdentity = some caller)
    (hk : keyPairStep cfg spec env = .ok keyName)
    (ha : amiStep cfg env = .ok amiID) :
    ∃ r, runPulumiProgram cfg spec env = .ok r := by
  unfold runPulumiProgram
  rw [hc, hk, ha]
  exact ⟨_, rfl⟩

theorem buildTags_Name (spec : InstanceSpec)
    (h : tagGet spec.Tags "Name" = none) :
    tagGet (buildTags spec) "Name" = some spec.Name := by
  unfold buildTags
  rw [foldl_tagInsert_not_mem _ _ _ ((tagGet_eq_none_iff _ _).mp h)]
  by_cases hu : spec.UserDataName ≠ ""
  · rw [if_pos hu, tagGet_insert_ne _ _ _ _ (by decide), tagGet_insert_self]
  · rw [if_neg hu, tagGet_insert_self]

theorem buildTags_UserData (spec : InstanceSpec)
    (h : tagGet spec.Tags "UserDataName" = none) :
    (tagGet (buildTags spec) "UserDataName").isSome = true ↔
      spec.UserDataName ≠ "" := by
  unfold buildTags
  rw [foldl_tagInsert_not_mem _ _ _ ((tagGet_eq_none_iff _ _).mp h)]
  by_cases hu : spec.UserDataName ≠ ""
  · rw [if_pos hu, tagGet_insert_self]
    simpa using hu
  · rw [if_neg hu, tagGet_insert_ne _ _ _ _ (by decide)]
    push_neg at hu
    simp [tagGet, hu]

/-- C2 as claimed: in the tag map of the created instance the reserved
`Name` tag always equals the instance name, for arbitrary
caller-supplied tags, and `UserDataName` is present exactly when the
spec field is non-empty. -/
def ClaimC2 : Prop :=
  ∀ (cfg : Profile) (spec : InstanceSpec) (env : PulumiEnv) (r : ProgramResult),
    runPulumiProgram cfg spec env = .ok r →
    tagGet r.computeInstance.tags "Name" = some spec.Name ∧
    ((tagGet r.computeInstance.tags "UserDataName").isSome = true ↔
      spec.UserDataName ≠ "")

/-- A benign effect environment: caller identity available, no local
files, AMI lookup succeeds. -/
def plainEnv : PulumiEnv :=
  { callerIdentity := some ("arn:aws:iam::123456789012:user/dev", "123456789012")
    homeDir := "/home/dev"
    fileRead := fun _ => none
    amiLookup := some "ami-ubuntu" }

/-- A spec whose caller-supplied tag collides with the reserved `Name`
tag. -/
def overrideSpec : InstanceSpec :=
  { Name := "dev1", instType := "", ProfileName := "", UserData := ""
    UserDataName := "", Tags := [("Name", "evil")] }

def overrideResult : ProgramResult :=
  { keyPolicyPrincipal := "arn:aws:iam::123456789012:user/dev"
    keyPolicyAccount := "123456789012"
    computeInstance :=
      { instanceType := "t3.micro", ami := "ami-ubuntu", keyName := none
        userData := "", tags := [("Name", "evil")] }
    exports := [("userDataName", "")] }

/-- C2 counterexample: the caller tag loop runs after the reserved
tags are written, so a caller-supplied `Name` tag (here `"evil"`)
overrides the reserved one (`"dev1"`). -/
theorem instance_tags_claim_counterexample : ¬ ClaimC2 := by
  intro h
  have hrun : runPulumiProgram fileProfile overrideSpec plainEnv = .ok overrideResult := by
    rfl
  have h2 := (h fileProfile overrideSpec plainEnv overrideResult hrun).1
  exact absurd h2 (by decide)

/-- C2 (amended). Caller-supplied tags are written last and therefore
win every collision; when the caller tags contain no `Name` key the
`Name` tag equals the instance name, when they contain no
`UserDataName` key the `UserDataName` tag is present exactly when the
spec names a managed boot script, and every caller-supplied pair is in
the final map verbatim. -/
theorem instance_tags (cfg : Profile) (spec : InstanceSpec) (env : PulumiEnv)
    (r : ProgramResult) (hrun : runPulumiProgram cfg spec env = .ok r)
    (hnd : (spec.Tags.map Prod.fst).Nodup) :
    (tagGet spec.Tags "Name" = none →
      tagGet r.computeInstance.tags "Name" = some spec.Name) ∧
    (tagGet spec.Tags "UserDataName" = none →
      ((tagGet r.computeInstance.tags "UserDataName").isSome = true ↔
        spec.UserDataName ≠ "")) ∧
    (∀ k v, (k, v) ∈ spec.Tags → tagGet r.computeInstance.tags k = some v) := by
  obtain ⟨caller, kn, am, hc, hk, ha, hr⟩ := runPulumiProgram_ok_elim hrun
  subst hr
  exact ⟨fun h => buildTags_Name spec h,
    fun h => buildTags_UserData spec h,
    fun k v hm => foldl_tagInsert_mem _ _ _ _ hnd hm⟩

/-- A well-behaved spec: a managed boot script and one ordinary
caller tag. -/
def taggedSpec : InstanceSpec :=
  { Name := "dev1", instType := "", ProfileName := "personal"
    UserData := "#cloud-config", UserDataName := "boot", Tags := [("env", "prod")] }

def taggedResult : ProgramResult :=
  { keyPolicyPrincipal := "arn:aws:iam::123456789012:user/dev"
    keyPolicyAccount := "123456789012"
    computeInstance :=
      { instanceType := "t3.micro", ami := "ami-ubuntu", keyName := none
        userData := "#cloud-config"
        tags := [("Name", "dev1"), ("UserDataName", "boot"), ("env", "prod")] }
    exports := [("profileName", "personal"), ("userDataName", "boot")] }

/-- Witness for C2 (amended) on a concrete successful run. -/
theorem instance_tags_witness :
    runPulumiProgram fileProfile taggedSpec plainEnv = .ok taggedResult ∧
    (taggedSpec.Tags.map Prod.fst).Nodup ∧
    ((tagGet taggedSpec.Tags "Name" = none →
       tagGet taggedResult.computeInstance.tags "Name" = some taggedSpec.Name) ∧
     (tagGet taggedSpec.Tags "UserDataName" = none →
       ((tagGet taggedResult.computeInstance.tags "UserDataName").isSome = true ↔
         taggedSpec.UserDataName ≠ "")) ∧
     (∀ k v, (k, v) ∈ taggedSpec.Tags →
       tagGet taggedResult.computeInstance.tags k = some v)) :=
  ⟨rfl, by decide,
    instance_tags fileProfile taggedSpec plainEnv taggedResult rfl (by decide)⟩

/-! # C5: when does graph construction / realization fail -/

/-- C5 as claimed: building/realizing the graph fails exactly when the
spec name is empty or a configured key file is unreadable after `~/`
expansion. -/
def ClaimC5 : Prop :=
  ∀ (cfg : Profile) (spec : InstanceSpec) (env : PulumiEnv),
    (runPulumiProgram cfg spec env).isOk = false ↔
      (spec.Name = "" ∨ (cfg.SSHPublicKey ≠ "" ∧
        env.fileRead (expandHome env cfg.SSHPublicKey) = none))

def emptyNameSpec : InstanceSpec :=
  { Name := "", instType := "", ProfileName := "", UserData := ""
    UserDataName := "", Tags := [] }

/-- C5 counterexample: with an empty spec name (and no key
configured) the program is built and even runs successfully — no
`BuildError` exists anywhere on this path. -/
theorem build_failure_claim_counterexample : ¬ ClaimC5 := by
  intro h
  have h2 := (h fileProfile emptyNameSpec plainEnv).mpr (Or.inl rfl)
  exact absurd h2 (by decide)

/-- C5 (amended). Graph construction itself never fails:
`GetPulumiProgram` returns a run function for every spec, and the
empty-name guard lives in the CLI `createInstance`, not in the build.
The key file is read, after `~/` expansion, only when the program runs
during realization: an unreadable configured key fails that run with
the wrapped `failed to read ssh key` error, while a readable or
unconfigured key lets the run proceed. -/
theorem key_read_during_realization :
    (∀ name : String,
      createInstanceNameGuard name = .error "instance name is required" ↔ name = "") ∧
    (∀ (cfg : Profile) (spec : InstanceSpec) (env : PulumiEnv) (caller : String × String),
      env.callerIdentity = some caller →
      cfg.SSHPublicKey ≠ "" →
      env.fileRead (expandHome env cfg.SSHPublicKey) = none →
      runPulumiProgram cfg spec env =
        .error ("failed to read ssh key: " ++
          ("open " ++ expandHome env cfg.SSHPublicKey))) ∧
    (∀ (cfg : Profile) (spec : InstanceSpec) (env : PulumiEnv)
        (caller : String × String) (amiID : String),
      env.callerIdentity = some caller →
      amiStep cfg env = .ok amiID →
      (cfg.SSHPublicKey = "" ∨
        ∃ content, env.fileRead (expandHome env cfg.SSHPublicKey) = some content) →
      ∃ r, runPulumiProgram cfg spec env = .ok r) := by
  refine ⟨?_, ?_, ?_⟩
  · intro name
    unfold createInstanceNameGuard
    by_cases h : name = ""
    · simp [h]
    · simp [h]
  · intro cfg spec env caller hc hkey hread
    unfold runPulumiProgram
    rw [hc]
    have hks : keyPairStep cfg spec env =
        .error ("failed to read ssh key: " ++
          ("open " ++ expandHome env cfg.SSHPublicKey)) := by
      unfold keyPairStep
      rw [if_pos hkey]
      unfold readPublicKey
      rw [if_neg ?pne, hread]
      intro h0
      exact hkey h0
    rw [hks]
  · intro cfg spec env caller amiID hc ha hkey
    have hks : ∃ kn, keyPairStep cfg spec env = .ok kn := by
      unfold keyPairStep
      rcases hkey with h0 | ⟨content, hsome⟩
      · rw [if_neg (by simpa using h0)]
        exact ⟨none, rfl⟩
      · by_cases hne : cfg.SSHPublicKey ≠ ""
        · rw [if_pos hne]
          unfold readPublicKey
          rw [if_neg (by simpa using hne), hsome]
          exact ⟨_, rfl⟩
        · rw [if_neg hne]
          exact ⟨none, rfl⟩
    obtain ⟨kn, hks⟩ := hks
    exact runPulumiProgram_ok_intro hc hks ha

def keyedProfile : Profile :=
  { Provider := "aws"
    PulumiBackend := "file://~/.privatebox/state"
    Region := "us-east-1"
    SSHPublicKey := "~/.ssh/id_ed25519.pub"
    ConnectCommand := ""
    UserData := ""
    AWS := { Profile := "", InstanceType := "", AMI := "" } }

theorem key_read_during_realization_witness :
    plainEnv.callerIdentity = some ("arn:aws:iam::123456789012:user/dev", "123456789012") ∧
    keyedProfile.SSHPublicKey ≠ "" ∧
    plainEnv.fileRead (expandHome plainEnv keyedProfile.SSHPublicKey) = none ∧
    runPulumiProgram keyedProfile taggedSpec plainEnv =
      .error ("failed to read ssh key: " ++
        ("open " ++ expandHome plainEnv keyedProfile.SSHPublicKey)) :=
  ⟨rfl, by decide, rfl,
    key_read_during_realization.2.1 keyedProfile taggedSpec plainEnv
      ("arn:aws:iam::123456789012:user/dev", "123456789012") rfl (by decide) rfl⟩

/-! # C7: explicit AMI override beats the lookup -/

/-- The same effect environment with a different AMI-lookup outcome. -/
def withLookup (env : PulumiEnv) (look : Option String) : PulumiEnv :=
  { callerIdentity := env.callerIdentity
    homeDir := env.homeDir
    fileRead := env.fileRead
    amiLookup := look }

/-- C7. When an explicit AMI override is configured the created
instance uses exactly that image id and the run result is independent
of the `ec2.LookupAmi` outcome; the lookup result is used exactly when
the override is empty. -/
theorem ami_override_wins (cfg : Profile) (spec : InstanceSpec) (env : PulumiEnv) :
    (cfg.AWS.AMI ≠ "" →
      (∀ r, runPulumiProgram cfg spec env = .ok r →
        r.computeInstance.ami = cfg.AWS.AMI) ∧
      (∀ look : Option String,
        runPulumiProgram cfg spec (withLookup env look) =
          runPulumiProgram cfg spec env)) ∧
    (cfg.AWS.AMI = "" →
      ∀ r, runPulumiProgram cfg spec env = .ok r →
        env.amiLookup = some r.computeInstance.ami) := by
  constructor
  · intro hne
    constructor
    · intro r hrun
      obtain ⟨c, kn, am, hc, hk, ha, hr⟩ := runPulumiProgram_ok_elim hrun
      unfold amiStep at ha
      rw [if_neg hne] at ha
      have ham : cfg.AWS.AMI = am := Except.ok.inj ha
      subst hr
      exact ham.symm
    · intro look
      have hami : ∀ e : PulumiEnv, amiStep cfg e = .ok cfg.AWS.AMI := by
        intro e
        unfold amiStep
        rw [if_neg hne]
      have hkeq : keyPairStep cfg spec (withLookup env look) = keyPairStep cfg spec env := rfl
      unfold runPulumiProgram
      have hceq : (withLookup env look).callerIdentity = env.callerIdentity := rfl
      rw [hceq]
      cases env.callerIdentity with
      | none => rfl
      | some caller =>
        rw [hkeq]
        cases keyPairStep cfg spec env with
        | error e => rfl
        | ok kn => rw [hami (withLookup env look), hami env]
  · intro h0 r hrun
    obtain ⟨c, kn, am, hc, hk, ha, hr⟩ := runPulumiProgram_ok_elim hrun
    unfold amiStep at ha
    rw [if_pos h0] at ha
    cases hl : env.amiLookup with
    | none => rw [hl] at ha; cases ha
    | some id =>
      rw [hl] at ha
      have hid : id = am := Except.ok.inj ha
      subst hr
      simp [hid]

def overrideAMIProfile : Profile :=
  { Provider := "aws"
    PulumiBackend := "file://~/.privatebox/state"
    Region := "us-east-1"
    SSHPublicKey := ""
    ConnectCommand := ""
    UserData := ""
    AWS := { Profile := "", InstanceType := "", AMI := "ami-custom" } }

/-- Witness for C7 at a profile configured with `ami-custom`. -/
theorem ami_override_wins_witness :
    overrideAMIProfile.AWS.AMI ≠ "" ∧
    ((∀ r, runPulumiProgram overrideAMIProfile taggedSpec plainEnv = .ok r →
        r.computeInstance.ami = overrideAMIProfile.AWS.AMI) ∧
      (∀ look : Option String,
        runPulumiProgram overrideAMIProfile taggedSpec (withLookup plainEnv look) =
          runPulumiProgram overrideAMIProfile taggedSpec plainEnv)) :=
  ⟨by decide,
    (ami_override_wins overrideAMIProfile taggedSpec plainEnv).1 (by decide)⟩

/-! # C8: listing backed by the file backend only -/

/-- C8. For a backend that is not `file://`-prefixed, `ListStacks`
fails with the unsupported-backend error and consults no file-system
oracle at all; for a file backend whose root directory reads
successfully, it returns exactly the names of the directory entries
that are directories. -/
theorem list_stacks_backend (cfg : Profile) :
    (strStartsWith cfg.PulumiBackend "file://" = false →
      ∀ fs fs₂ : FsEnv,
        ListStacks cfg fs = .error "listing stacks only supported for file:// backend" ∧
        ListStacks cfg fs = ListStacks cfg fs₂) ∧
    (strStartsWith cfg.PulumiBackend "file://" = true →
      ∀ (fs : FsEnv) (entries : List DirEntry),
        fs.readDir (listPath cfg fs) = .ok entries →
        ListStacks cfg fs =
          .ok ((entries.filter (fun e => e.isDir)).map (fun e => e.name))) := by
  constructor
  · intro h fs fs₂
    simp [ListStacks, h]
  · intro h fs entries hrd
    simp [ListStacks, h, hrd]

def s3Profile : Profile :=
  { Provider := "aws"
    PulumiBackend := "s3://my-bucket"
    Region := "us-east-1"
    SSHPublicKey := ""
    ConnectCommand := ""
    UserData := ""
    AWS := { Profile := "", InstanceType := "", AMI := "" } }

def sampleFs : FsEnv :=
  { homeDir := "/home/dev"
    readDir := fun p =>
      if p = "/home/dev/.privatebox/state" then
        .ok [⟨"dev1", true⟩, ⟨"dev2", true⟩, ⟨"stray.json", false⟩]
      else .notExist }

/-- Witness for C8: the `s3://` backend errs for every file system;
the file backend lists the two instance directories. -/
theorem list_stacks_backend_witness :
    (strStartsWith s3Profile.PulumiBackend "file://" = false ∧
      (ListStacks s3Profile sampleFs =
          .error "listing stacks only supported for file:// backend" ∧
        ListStacks s3Profile sampleFs = ListStacks s3Profile sampleFs)) ∧
    (strStartsWith fileProfile.PulumiBackend "file://" = true ∧
      sampleFs.readDir (listPath fileProfile sampleFs) =
        .ok [⟨"dev1", true⟩, ⟨"dev2", true⟩, ⟨"stray.json", false⟩] ∧
      ListStacks fileProfile sampleFs = .ok ["dev1", "dev2"]) :=
  ⟨⟨by decide, (list_stacks_backend s3Profile).1 (by decide) sampleFs sampleFs⟩,
   ⟨by decide, by decide,
     by
      have h := (list_stacks_backend fileProfile).2 (by decide) sampleFs
        [⟨"dev1", true⟩, ⟨"dev2", true⟩, ⟨"stray.json", false⟩] (by decide)
      simpa using h⟩⟩

/-! # C4: Outputs reads persisted state only -/

/-- C4 as claimed: `GetOutputs` returns the persisted record, and
fails when no deployment record exists for the name. -/
def ClaimC4 : Prop :=
  ∀ (cfg : Profile)
    (getProgram : InstanceSpec → PulumiEnv → Except String ProgramResult)
    (st : PulumiBackendState) (name : String),
    (∀ outs, stackOutputs st name = some outs →
      (GetOutputs cfg getProgram st name).1 = .ok outs) ∧
    (stackOutputs st name = none →
      (GetOutputs cfg getProgram st name).1.isOk = false)

/-- A provider program that is never run by `GetOutputs`. -/
def dummyProgram : InstanceSpec → PulumiEnv → Except String ProgramResult :=
  fun _ _ => .error "unused"

/-- C4 counterexample: on an empty backend (no deployment record for
`dev1`) `GetOutputs` does not fail — `UpsertStackInlineSource` creates
the stack and `Outputs` succeeds with the empty output map. -/
theorem outputs_claim_counterexample : ¬ ClaimC4 := by
  intro h
  have h2 := (h fileProfile dummyProgram ⟨[]⟩ "dev1").2 rfl
  exact absurd h2 (by decide)

/-- C4 (amended). `GetOutputs` returns the persisted outputs when a
record exists; its whole behaviour is independent of the provider
program (no provider resource call is needed or made); and when no
record exists it succeeds with the empty output map (the upsert
creates the stack) instead of failing. -/
theorem outputs_from_state (cfg : Profile)
    (getProgram : InstanceSpec → PulumiEnv → Except String ProgramResult)
    (st : PulumiBackendState) (name : String) :
    (∀ outs, stackOutputs st name = some outs →
      (GetOutputs cfg getProgram st name).1 = .ok outs) ∧
    (∀ g₂ : InstanceSpec → PulumiEnv → Except String ProgramResult,
      GetOutputs cfg getProgram st name = GetOutputs cfg g₂ st name) ∧
    (stackOutputs st name = none →
      (GetOutputs cfg getProgram st name).1 = .ok []) := by
  refine ⟨?_, fun g₂ => rfl, ?_⟩
  · intro outs houts
    have hfind : (st.stackL.find? (fun kv => kv.1 = name)).isSome = true := by
      unfold stackOutputs at houts
      cases hf : st.stackL.find? (fun kv => kv.1 = name) with
      | none => rw [hf] at houts; cases houts
      | some kv => simp
    unfold GetOutputs upsertStack
    rw [if_pos hfind]
    simp [houts]
  · intro hnone
    have hfind : st.stackL.find? (fun kv => kv.1 = name) = none := by
      unfold stackOutputs at hnone
      cases hf : st.stackL.find? (fun kv => kv.1 = name) with
      | none => rfl
      | some kv => rw [hf] at hnone; cases hnone
    unfold GetOutputs upsertStack
    rw [if_neg (by simp [hfind])]
    simp [stackOutputs, List.find?_append, hfind, List.find?]

/-- Witness for C4 (amended) on a one-stack backend. -/
theorem outputs_from_state_witness :
    stackOutputs ⟨[("dev1", [("instanceID", .vstr "i-0abc")])]⟩ "dev1" =
      some [("instanceID", .vstr "i-0abc")] ∧
    (GetOutputs fileProfile dummyProgram
        ⟨[("dev1", [("instanceID", .vstr "i-0abc")])]⟩ "dev1").1 =
      .ok [("instanceID", .vstr "i-0abc")] :=
  ⟨by decide,
    (outputs_from_state fileProfile dummyProgram
      ⟨[("dev1", [("instanceID", .vstr "i-0abc")])]⟩ "dev1").1
      [("instanceID", .vstr "i-0abc")] (by decide)⟩

/-! # C3 and C6: the concurrent status fan-out -/

/-- Spec-side: the per-instance probe succeeds — provider
constructible, `GetOutputs` succeeds, a non-empty string `instanceID`
output exists, and the live status call succeeds. -/
def probeOk (profile : Profile) (pe : ProbeEnv) (name : String) : Bool :=
  profile.Provider = "aws" &&
    (match pe.getOutputs name with
     | none => false
     | some outs =>
       match outStr outs "instanceID" with
       | none => false
       | some id => id != "" && (pe.getInstanceStatus id).isSome)

/-- Spec-side: the live lifecycle state of an instance (the empty
string when any probe step fails). -/
def probedState (pe : ProbeEnv) (name : String) : String :=
  match pe.getOutputs name with
  | none => ""
  | some outs =>
    match outStr outs "instanceID" with
    | none => ""
    | some id =>
      match pe.getInstanceStatus id with
      | none => ""
      | some status => status.State

/-- The state comparison performed by `getInstancesWithState`:
equality, but only for the two recognised filter values. -/
def stateMatches (desiredState liveState : String) : Bool :=
  (desiredState = "running" && liveState = "running") ||
  (desiredState = "stopped" && liveState = "stopped")

theorem probeCandidate_eq (profile : Profile) (pe : ProbeEnv)
    (desiredState name : String) :
    probeCandidate profile pe desiredState name =
      (probeOk profile pe name &&
        stateMatches desiredState (probedState pe name)) := by
  unfold probeCandidate probeOk probedState stateMatches
  by_cases hp : profile.Provider = "aws"
  · rw [if_pos hp]
    cases ho : pe.getOutputs name with
    | none => simp [hp, ho]
    | some outs =>
      cases hs : outStr outs "instanceID" with
      | none => simp [hp, ho, hs]
      | some id =>
        by_cases hid : id = ""
        · simp [hp, ho, hs, hid]
        · cases hst : pe.getInstanceStatus id with
          | none => simp [hp, ho, hs, hid, hst]
          | some status => simp [hp, ho, hs, hid, hst]
  · rw [if_neg hp]
    simp [hp]

/-- Evaluation of the filtered fan-out once the stack listing is
fixed. -/
theorem getInstancesWithState_eq (profile : Profile) (fs : FsEnv) (pe : ProbeEnv)
    (desiredState : String) (stackNames : List String)
    (hls : ListStacks profile fs = .ok stackNames) (hne : desiredState ≠ "") :
    getInstancesWithState profile fs pe desiredState =
      .ok (stackNames.filter (fun n =>
        probeOk profile pe n && stateMatches desiredState (probedState pe n))) := by
  unfold getInstancesWithState
  rw [hls]
  show (if desiredState = "" then Except.ok stackNames
    else Except.ok (stackNames.filter (probeCandidate profile pe desiredState))) = _
  rw [if_neg hne]
  congr 1
  apply List.filter_congr
  intro n _
  exact probeCandidate_eq profile pe desiredState n

/-- C3 as claimed: given a successful listing, the filtered fan-out
returns exactly the successfully probed instances (all N−M of them)
and never errors. -/
def ClaimC3 : Prop :=
  ∀ (profile : Profile) (fs : FsEnv) (pe : ProbeEnv) (filterState : String)
    (stackNames : List String),
    ListStacks profile fs = .ok stackNames →
    getInstancesWithState profile fs pe filterState =
      .ok (stackNames.filter (probeOk profile pe))

/-- Probe oracle: `dev1` has a recorded instance `i-1` that is live
and `running`; `dev2` has no readable outputs. -/
def samplePe : ProbeEnv :=
  { getOutputs := fun n =>
      if n = "dev1" then some [("instanceID", .vstr "i-1")] else none
    getInstanceStatus := fun i =>
      if i = "i-1" then some ⟨"i-1", "3.3.3.3", "running"⟩ else none }

/-- C3 counterexample: of the stacks `dev1`, `dev2` exactly `dev1`
probes successfully (N−M = 1), but filtering for `"stopped"` returns
the empty list — successfully probed instances whose state does not
match the filter are excluded too. -/
theorem discovery_claim_counterexample : ¬ ClaimC3 := by
  intro h
  have h2 := h fileProfile sampleFs samplePe "stopped" ["dev1", "dev2"] rfl
  have hval : getInstancesWithState fileProfile sampleFs samplePe "stopped" =
      .ok [] := rfl
  rw [hval] at h2
  exact absurd (Except.ok.inj h2) (by decide)

/-- C3 (amended). With the listing fixed, the fan-out never errors:
with no filter it returns every known name unprobed; with a filter it
returns exactly the instances that probe successfully AND whose live
state matches, so each probe failure excludes only its own instance
and the result size is at most the number N−M of successful probes.
`FindInstancesUsingUserData` likewise swallows per-instance output
failures and returns a subset of the known names. -/
theorem discovery_tolerates_failures (profile : Profile) (fs : FsEnv) (pe : ProbeEnv)
    (filterState : String) (stackNames : List String)
    (hls : ListStacks profile fs = .ok stackNames) :
    (filterState = "" →
      getInstancesWithState profile fs pe filterState = .ok stackNames) ∧
    (filterState ≠ "" →
      getInstancesWithState profile fs pe filterState =
        .ok (stackNames.filter (fun n =>
          probeOk profile pe n && stateMatches filterState (probedState pe n))) ∧
      (∀ res, getInstancesWithState profile fs pe filterState = .ok res →
        (∀ n ∈ res, probeOk profile pe n = true) ∧
        res.length ≤ (stackNames.filter (probeOk profile pe)).length)) ∧
    (∀ u, ∃ ms, FindInstancesUsingUserData profile fs pe u = .ok ms ∧
      ∀ n ∈ ms, n ∈ stackNames) := by
  refine ⟨?_, ?_, ?_⟩
  · intro h0
    unfold getInstancesWithState
    rw [hls]
    show (if filterState = "" then Except.ok stackNames
      else Except.ok (stackNames.filter (probeCandidate profile pe filterState))) = _
    rw [if_pos h0]
  · intro hne
    have heq := getInstancesWithState_eq profile fs pe filterState stackNames hls hne
    refine ⟨heq, ?_⟩
    intro res hres
    rw [heq] at hres
    have hres2 : res = stackNames.filter (fun n =>
        probeOk profile pe n && stateMatches filterState (probedState pe n)) :=
      (Except.ok.inj hres).symm
    subst hres2
    constructor
    · intro n hn
      have := (List.mem_filter.mp hn).2
      exact (Bool.and_eq_true_iff.mp this).1
    · have h1 : (stackNames.filter (probeOk profile pe)).filter
          (fun n => stateMatches filterState (probedState pe n)) =
          stackNames.filter (fun n =>
            probeOk profile pe n && stateMatches filterState (probedState pe n)) := by
        rw [List.filter_filter]
        exact List.filter_congr (fun a _ => Bool.and_comm _ _)
      rw [← h1]
      exact List.length_filter_le _ _
  · intro u
    unfold FindInstancesUsingUserData
    rw [hls]
    refine ⟨_, rfl, ?_⟩
    intro n hn
    exact (List.mem_filter.mp hn).1

/-- Witness for C3 (amended) on the two-stack file backend: `dev1`
probes successfully as `running`, `dev2` fails its probe; the
`"running"` filter returns exactly `dev1` and nothing errors. -/
theorem discovery_tolerates_failures_witness :
    ListStacks fileProfile sampleFs = .ok ["dev1", "dev2"] ∧
    (("running" : String) ≠ "" →
      getInstancesWithState fileProfile sampleFs samplePe "running" =
        .ok ((["dev1", "dev2"]).filter (fun n =>
          probeOk fileProfile samplePe n &&
            stateMatches "running" (probedState samplePe n))) ∧
      (∀ res, getInstancesWithState fileProfile sampleFs samplePe "running" = .ok res →
        (∀ n ∈ res, probeOk fileProfile samplePe n = true) ∧
        res.length ≤ ((["dev1", "dev2"]).filter (probeOk fileProfile samplePe)).length)) :=
  ⟨rfl,
    (discovery_tolerates_failures fileProfile sampleFs samplePe "running"
      ["dev1", "dev2"] rfl).2.1⟩

/-- C6 as claimed: a successfully probed instance appears in the
filtered result exactly when its live state equals the filter, for any
filter value. -/
def ClaimC6 : Prop :=
  ∀ (profile : Profile) (fs : FsEnv) (pe : ProbeEnv) (filterState : String)
    (stackNames res : List String) (name : String),
    ListStacks profile fs = .ok stackNames →
    filterState ≠ "" →
    getInstancesWithState profile fs pe filterState = .ok res →
    probeOk profile pe name = true →
    name ∈ stackNames →
    (name ∈ res ↔ probedState pe name = filterState)

/-- Probe oracle: `dev1` is live but `terminated`. -/
def samplePeTerm : ProbeEnv :=
  { getOutputs := fun n =>
      if n = "dev1" then some [("instanceID", .vstr "i-1")] else none
    getInstanceStatus := fun i =>
      if i = "i-1" then some ⟨"i-1", "", "terminated"⟩ else none }

/-- C6 counterexample: filtering for `"terminated"` returns nothing,
even for an instance whose live state is exactly `"terminated"` — the
code only ever matches the filter values `"running"` and `"stopped"`. -/
theorem filter_claim_counterexample : ¬ ClaimC6 := by
  intro h
  have h2 := h fileProfile sampleFs samplePeTerm "terminated" ["dev1", "dev2"] []
    "dev1" rfl (by decide) rfl (by decide) (by decide)
  exact absurd (h2.mpr rfl) (by decide)

/-- C6 (amended). A successfully probed instance appears in the
filtered result exactly when the filter is `"running"` or `"stopped"`
AND its live lifecycle state equals the filter; every other filter
value matches no instance. -/
theorem filter_match_spec (profile : Profile) (fs : FsEnv) (pe : ProbeEnv)
    (filterState : String) (stackNames res : List String) (name : String)
    (hls : ListStacks profile fs = .ok stackNames)
    (hne : filterState ≠ "")
    (hres : getInstancesWithState profile fs pe filterState = .ok res)
    (hok : probeOk profile pe name = true)
    (hmem : name ∈ stackNames) :
    name ∈ res ↔
      ((filterState = "running" ∨ filterState = "stopped") ∧
        probedState pe name = filterState) := by
  rw [getInstancesWithState_eq profile fs pe filterState stackNames hls hne] at hres
  have hres2 : res = stackNames.filter (fun n =>
      probeOk profile pe n && stateMatches filterState (probedState pe n)) :=
    (Except.ok.inj hres).symm
  subst hres2
  rw [List.mem_filter]
  constructor
  · rintro ⟨-, hpred⟩
    have hsm := (Bool.and_eq_true_iff.mp hpred).2
    unfold stateMatches at hsm
    rcases Bool.or_eq_true_iff.mp hsm with hr | hs
    · obtain ⟨h1, h2⟩ := Bool.and_eq_true_iff.mp hr
      exact ⟨Or.inl (of_decide_eq_true h1),
        (of_decide_eq_true h2).trans (of_decide_eq_true h1).symm⟩
    · obtain ⟨h1, h2⟩ := Bool.and_eq_true_iff.mp hs
      exact ⟨Or.inr (of_decide_eq_true h1),
        (of_decide_eq_true h2).trans (of_decide_eq_true h1).symm⟩
  · rintro ⟨hf, hstate⟩
    refine ⟨hmem, ?_⟩
    rw [Bool.and_eq_true_iff]
    refine ⟨hok, ?_⟩
    unfold stateMatches
    rcases hf with h0 | h0 <;>
      subst h0 <;>
      simp [hstate]

/-- Witness for C6 (amended): with the `"running"` filter, `dev1`
(live state `"running"`) appears in the result. -/
theorem filter_match_spec_witness :
    ListStacks fileProfile sampleFs = .ok ["dev1", "dev2"] ∧
    ("running" : String) ≠ "" ∧
    getInstancesWithState fileProfile sampleFs samplePe "running" = .ok ["dev1"] ∧
    probeOk fileProfile samplePe "dev1" = true ∧
    "dev1" ∈ (["dev1", "dev2"] : List String) ∧
    ("dev1" ∈ (["dev1"] : List String) ↔
      ((("running" : String) = "running" ∨ ("running" : String) = "stopped") ∧
        probedState samplePe "dev1" = "running")) :=
  ⟨rfl, by decide, rfl, by decide, by decide,
    filter_match_spec fileProfile sampleFs samplePe "running" ["dev1", "dev2"]
      ["dev1"] "dev1" rfl (by decide) rfl (by decide) (by decide)⟩

/-! # C10: `Load` always yields a usable (non-nil) profile map -/

/-- C10. (a) Every successful `Load` returns an `AppConfig` whose
`Profiles` map is non-nil; (b) with no config file at all, `Load`
succeeds with the default empty `AppConfig`; (c) a legacy JSON file
that parses as an `AppConfig` with a nil profile map but re-parses as
a single profile with a non-empty `Provider` is wrapped as the profile
named `"default"`. -/
theorem load_profiles_non_nil :
    (∀ (env : LoadEnv) (cfg : AppConfig),
      Load env = .ok cfg → cfg.Profiles.isSome = true) ∧
    (∀ env : LoadEnv, env.yamlExists = false → env.jsonExists = false →
      Load env = .ok NewAppConfig) ∧
    (∀ (env : LoadEnv) (d : String) (app : AppConfig) (p : Profile),
      env.yamlExists = false → env.jsonExists = true →
      env.jsonRead = some d →
      env.jsonParseApp d = some app → app.Profiles = none →
      env.jsonParseProfile d = some p → p.Provider ≠ "" →
      Load env = .ok { CurrentProfile := "", Profiles := some [("default", p)] }) := by
  refine ⟨?_, ?_, ?_⟩
  · intro env cfg h
    unfold Load at h
    split at h
    · -- config.yaml exists
      split at h
      · exact Except.noConfusion h
      · split at h
        · exact Except.noConfusion h
        · split at h
          · rw [← Except.ok.inj h]
            rfl
          · next hpn =>
            rw [← Except.ok.inj h, Option.isSome_iff_ne_none]
            exact hpn
    · split at h
      · -- legacy config.json exists
        split at h
        · exact Except.noConfusion h
        · split at h
          · exact Except.noConfusion h
          · split at h
            · split at h
              · split at h
                · rw [← Except.ok.inj h]
                  rfl
                · rw [← Except.ok.inj h]
                  rfl
              · rw [← Except.ok.inj h]
                rfl
            · next hpn =>
              rw [← Except.ok.inj h, Option.isSome_iff_ne_none]
              exact hpn
      · rw [← Except.ok.inj h]
        rfl
  · intro env hy hj
    simp [Load, hy, hj]
  · intro env d app p hy hj hr hp hpn ho hprov
    simp [Load, hy, hj, hr, hp, hpn, ho, hprov, NewAppConfig]

/-- A YAML config carrying one profile. -/
def yamlEnv : LoadEnv :=
  { yamlExists := true
    yamlRead := some "profiles personal"
    yamlParse := fun d =>
      if d = "profiles personal" then
        some { CurrentProfile := "", Profiles := some [("personal", fileProfile)] }
      else none
    jsonExists := false
    jsonRead := none
    jsonParseApp := fun _ => none
    jsonParseProfile := fun _ => none }

/-- A legacy single-profile JSON config. -/
def legacyEnv : LoadEnv :=
  { yamlExists := false
    yamlRead := none
    yamlParse := fun _ => none
    jsonExists := true
    jsonRead := some "legacy-json"
    jsonParseApp := fun d =>
      if d = "legacy-json" then some { CurrentProfile := "", Profiles := none } else none
    jsonParseProfile := fun d =>
      if d = "legacy-json" then some fileProfile else none }

/-- Witness for C10 on a parsed YAML config, on the no-file default,
and on the legacy migration. -/
theorem load_profiles_non_nil_witness :
    (Load yamlEnv =
        .ok { CurrentProfile := "", Profiles := some [("personal", fileProfile)] } ∧
      ({ CurrentProfile := "", Profiles := some [("personal", fileProfile)] } :
        AppConfig).Profiles.isSome = true) ∧
    Load legacyEnv = .ok { CurrentProfile := "", Profiles := some [("default", fileProfile)] } :=
  ⟨⟨rfl,
    load_profiles_non_nil.1 yamlEnv
      { CurrentProfile := "", Profiles := some [("personal", fileProfile)] } rfl⟩,
    load_profiles_non_nil.2.2 legacyEnv "legacy-json"
      { CurrentProfile := "", Profiles := none } fileProfile
      rfl rfl rfl rfl rfl rfl (by decide)⟩

end Privatebox
